import Mathlib

/-!
Verification of the TABLA_BAKI backgammon client and of the rule engine it
talks to.  The data model and the client-side handlers are embedded from the
TypeScript sources under src/app and the unnamed component files; the server
side rule engine (legal-move generator, validator, turn engine) is not part
of the shipped sources, so it is modelled from the specification, as marked
on each such definition.
-/

namespace TablaBaki

/-- Colors of the two players.  The TypeScript client uses the strings
white and black; they are embedded as an inductive type. -/
inductive Player where
  | white
  | black
deriving DecidableEq

/-- The opponent of a player. -/
def Player.opp : Player → Player
  | .white => .black
  | .black => .white

/-- Move kinds of the API type LegalMove.move_type, which in the client is
one of the strings normal, enter and bear_off (src/app/src/types/game.ts). -/
inductive MoveType where
  | normal
  | enter
  | bear_off
deriving DecidableEq

/-- PointData from src/app/src/types/game.ts: a board point with independent
white and black piece counts. -/
structure PointData where
  number : Nat
  white_pieces : Nat
  black_pieces : Nat
deriving DecidableEq

/-- BoardState from src/app/src/types/game.ts. -/
structure BoardState where
  points : List PointData
  bar_white : Nat
  bar_black : Nat
  borne_off_white : Nat
  borne_off_black : Nat
  current_player : Option Player
  dice : Option (Nat × Nat)
  game_over : Bool
  winner : Option Player
deriving DecidableEq

/-- LegalMove from src/app/src/types/game.ts; the same shape serializes the
move candidates produced by the engine. -/
structure LegalMove where
  move_type : MoveType
  from_point : Option Nat
  to_point : Option Nat
  die_value : Nat
deriving DecidableEq

/-- GameState from src/app/src/types/game.ts. -/
structure GameState where
  game_id : String
  variant : String
  board : BoardState
  legal_moves : List LegalMove
  can_roll : Bool
deriving DecidableEq

/-- Bar count of the current player, as computed at the top of
handlePointClick in the App component (src/unnamed/part_011): white reads
bar_white, black reads bar_black, no current player yields 0. -/
def barCountOf (b : BoardState) : Nat :=
  match b.current_player with
  | some Player.white => b.bar_white
  | some Player.black => b.bar_black
  | none => 0

/-- The movesFromPoint filter of handlePointClick (src/unnamed/part_011):
clicking the bar sentinel 0 keeps the enter moves, clicking a board point
keeps the moves leaving that point. -/
def movesFromPoint (legal : List LegalMove) (pointNumber : Nat) : List LegalMove :=
  if pointNumber = 0 then
    legal.filter (fun m => decide (m.move_type = MoveType.enter))
  else
    legal.filter (fun m => decide (m.from_point = some pointNumber))

/-- Result of one invocation of handlePointClick: the move submitted to
makeMove, if any, and the new selectedPoint and validMoves states. -/
structure ClickResult where
  submitted : Option LegalMove
  selectedPoint : Option Nat
  validMoves : List LegalMove
deriving DecidableEq

/-- handlePointClick from the App component (src/unnamed/part_011), as a pure
transition on the selection state.  The early return when no dice are rolled,
the forced bar-entry branch, the bear-off shortcut on a second click of the
selected point, and the move lookup on a second click are translated
branch for branch. -/
def handlePointClick (gs : GameState) (selectedPoint : Option Nat)
    (validMoves : List LegalMove) (pointNumber : Nat) : ClickResult :=
  match gs.board.dice with
  | none => ⟨none, selectedPoint, validMoves⟩
  | some _ =>
    match selectedPoint with
    | none =>
      if 0 < barCountOf gs.board ∧
          gs.legal_moves.filter (fun m => decide (m.move_type = MoveType.enter)) ≠ [] then
        if pointNumber ≠ 0 then
          match (gs.legal_moves.filter
              (fun m => decide (m.move_type = MoveType.enter))).find?
              (fun m => decide (m.to_point = some pointNumber)) with
          | some mv => ⟨some mv, none, []⟩
          | none =>
            ⟨none, some 0,
              gs.legal_moves.filter (fun m => decide (m.move_type = MoveType.enter))⟩
        else
          ⟨none, some 0,
            gs.legal_moves.filter (fun m => decide (m.move_type = MoveType.enter))⟩
      else
        ⟨none, some pointNumber, movesFromPoint gs.legal_moves pointNumber⟩
    | some sp =>
      match (if sp ≠ 0 ∧ pointNumber = sp then
          gs.legal_moves.find? (fun m =>
            decide (m.move_type = MoveType.bear_off) && decide (m.from_point = some sp))
        else none) with
      | some mv => ⟨some mv, none, []⟩
      | none =>
        match gs.legal_moves.find? (fun m =>
          if sp = 0 then
            decide (m.move_type = MoveType.enter) && decide (m.to_point = some pointNumber)
          else
            decide (m.move_type = MoveType.normal) && decide (m.from_point = some sp) &&
              decide (m.to_point = some pointNumber)) with
        | some mv => ⟨some mv, none, []⟩
        | none => ⟨none, some pointNumber, movesFromPoint gs.legal_moves pointNumber⟩

/-- handleManualMove from the GameControls component (src/unnamed/part_003):
look up a normal legal move with the typed source and destination and submit
it if found. -/
def handleManualMove (legal : List LegalMove) (fromPoint toPoint : Nat) : Option LegalMove :=
  legal.find? (fun m =>
    decide (m.move_type = MoveType.normal) && decide (m.from_point = some fromPoint) &&
      decide (m.to_point = some toPoint))

/-- handleEnterMove from the GameControls component (src/unnamed/part_003). -/
def handleEnterMove (legal : List LegalMove) (point : Nat) : Option LegalMove :=
  legal.find? (fun m =>
    decide (m.move_type = MoveType.enter) && decide (m.to_point = some point))

/-- handleBearOff from the GameControls component (src/unnamed/part_003). -/
def handleBearOff (legal : List LegalMove) (point : Nat) : Option LegalMove :=
  legal.find? (fun m =>
    decide (m.move_type = MoveType.bear_off) && decide (m.from_point = some point))

/-- The validMove lookup of renderPoint in the Board component
(src/unnamed/part_000): with the bar sentinel selected, a point highlights
when an enter move reaches it; otherwise when some valid move goes from the
selected point to it. -/
def findValidMove (validMoves : List LegalMove) (selectedPoint : Option Nat)
    (pointNumber : Nat) : Option LegalMove :=
  validMoves.find? (fun m =>
    if selectedPoint = some 0 then
      decide (m.move_type = MoveType.enter) && decide (m.to_point = some pointNumber)
    else
      decide (m.to_point = some pointNumber) && decide (m.from_point = selectedPoint))

/-- The isCombinedMove classification of renderPoint in the Board component
(src/unnamed/part_000): a valid destination whose matched move is normal,
whose die value is the sum of the two dice, and whose dice differ. -/
def isCombinedMove (board : BoardState) (validMoves : List LegalMove)
    (selectedPoint : Option Nat) (pointNumber : Nat) : Bool :=
  match findValidMove validMoves selectedPoint pointNumber, board.dice with
  | some mv, some (d1, d2) =>
    decide (mv.move_type = MoveType.normal) && decide (mv.die_value = d1 + d2) &&
      decide (d1 ≠ d2)
  | _, _ => false

/-- The hasBarCheckers guard of the bar area in the Board component
(src/unnamed/part_000). -/
def hasBarCheckers (board : BoardState) (currentPlayer : Option Player) : Bool :=
  (decide (currentPlayer = some Player.white) && decide (0 < board.bar_white)) ||
    (decide (currentPlayer = some Player.black) && decide (0 < board.bar_black))

/-- The onClick handler of the bar area in the Board component
(src/unnamed/part_000): onPointClick(0) fires exactly when the current
player has checkers on the bar. -/
def barClickEmit (board : BoardState) (currentPlayer : Option Player) : Option Nat :=
  if hasBarCheckers board currentPlayer then some 0 else none

/-- The onKeyDown handler of the bar area in the Board component
(src/unnamed/part_000): onPointClick(0) fires exactly when the current
player has checkers on the bar and the key is Enter or Space. -/
def barKeyDownEmit (board : BoardState) (currentPlayer : Option Player)
    (key : String) : Option Nat :=
  if hasBarCheckers board currentPlayer && (decide (key = "Enter") || decide (key = " ")) then
    some 0
  else none

/-- The point numbers the Board component renders as board points
(src/unnamed/part_000): rows 13..18, 12..7, 19..24 and 6..1. -/
def renderedPointNumbers : List Nat :=
  ((List.range 6).map (fun i => 13 + i)) ++ ((List.range 6).map (fun i => 12 - i)) ++
    ((List.range 6).map (fun i => 19 + i)) ++ ((List.range 6).map (fun i => 6 - i))

/-- Shape of the HTTP response ApiClient.makeMove receives
(src/unnamed/part_009): an ok flag, an error detail used when not ok, and
the success payload. -/
structure MoveResponse where
  ok : Bool
  detail : String
  success : Bool
  explanations : List String
  game_state : GameState
deriving DecidableEq

/-- ApiClient.makeMove from src/unnamed/part_009: a non-ok response throws an
Error carrying the detail message; an ok response returns the payload. -/
def clientMakeMove (resp : MoveResponse) : Except String (Bool × List String × GameState) :=
  if resp.ok then Except.ok (resp.success, resp.explanations, resp.game_state)
  else Except.error resp.detail

/-- Cache effect of useMakeMove (src/app/src/hooks/useGameApi.ts): the cached
game state is replaced only in the onSuccess handler, so a thrown request
leaves the cache untouched. -/
def updateCacheOnMakeMove (cache : Option GameState) (resp : MoveResponse) : Option GameState :=
  match clientMakeMove resp with
  | Except.ok r => some r.2.2
  | Except.error _ => cache

/-- The refetchInterval callback of useLegalMoves
(src/app/src/hooks/useGameApi.ts): poll every 1000 ms while data is present
and no dice are rolled, otherwise stop polling. -/
def refetchIntervalForLegalMoves (data : Option (List LegalMove × Option (Nat × Nat))) :
    Option Nat :=
  match data with
  | some r => if r.2 = none then some 1000 else none
  | none => none

/-- Modelled from the spec: the RuleConfig data model of section 3, the
parsed, immutable variant description.  The backend RuleSet class is not in
the shipped sources; the fields follow the spec and the optional
VariantRules client type (src/unnamed/part_010). -/
structure RuleConfig where
  direction_white : Int
  direction_black : Int
  can_hit : Bool
  pin_instead : Bool
  doubles_uses : Nat
  combined_normal : Bool
  combined_enter : Bool
  combined_bear_off : Bool
  bearing_off_enabled : Bool
  all_in_outer_board : Bool
  must_use_all_dice : Bool
  must_use_higher_if_only_one : Bool
deriving DecidableEq

/-- Movement sign of a color, per the RuleSet.get_direction accessor
described in src/RULES_IMPLEMENTATION.md. -/
def RuleConfig.direction (r : RuleConfig) : Player → Int
  | Player.white => r.direction_white
  | Player.black => r.direction_black

/-- Modelled from the spec: the engine-side Point of the section 3 data
model, with the pinned flag of pin-instead variants.  The backend Point
class with its is_pinned method is not in the shipped sources. -/
structure EPoint where
  number : Nat
  white_count : Nat
  black_count : Nat
  pinned : Bool
deriving DecidableEq

/-- Checker count of a player on a point. -/
def EPoint.countOf (pt : EPoint) : Player → Nat
  | Player.white => pt.white_count
  | Player.black => pt.black_count

/-- Modelled from the spec: the engine-side Board of the section 3 data
model.  The backend Board class is not in the shipped sources. -/
structure EBoard where
  size : Nat
  points : List EPoint
  bar_white : Nat
  bar_black : Nat
  borne_off_white : Nat
  borne_off_black : Nat
deriving DecidableEq

/-- Bar count of a player. -/
def EBoard.barOf (b : EBoard) : Player → Nat
  | Player.white => b.bar_white
  | Player.black => b.bar_black

/-- Lookup of the point with a given number; an absent number is read as an
empty point. -/
def EBoard.getPoint (b : EBoard) (n : Nat) : EPoint :=
  (b.points.find? (fun pt => decide (pt.number = n))).getD ⟨n, 0, 0, false⟩

/-- Opponent checker count on a point, from the mover point of view. -/
def oppCount (b : EBoard) (p : Player) (n : Nat) : Nat :=
  (b.getPoint n).countOf p.opp

/-- Own checker count on a point. -/
def ownCount (b : EBoard) (p : Player) (n : Nat) : Nat :=
  (b.getPoint n).countOf p

/-- A board is well formed when its point list carries exactly the numbers
1..size in order, so every in-range number occurs exactly once. -/
def EBoard.WF (b : EBoard) : Prop :=
  b.points.map (fun pt => pt.number) = List.range' 1 b.size

/-- Modelled from the spec: the occupancy resolution step of the design
notes, a tagged variant Block, Hit, Pin or LandFree.  Two or more opponent
checkers block the destination (src/RULES_IMPLEMENTATION.md, bar entry
blocking); a single opponent checker is hit when can_hit holds, pinned when
pin_instead holds, and otherwise left in place as in the no-hitting
variants. -/
inductive Occupancy where
  | Block
  | Hit
  | Pin
  | LandFree
deriving DecidableEq

/-- Modelled from the spec: how a landing on a point with the given number
of opponent checkers resolves. -/
def resolveOccupancy (rules : RuleConfig) (oppCnt : Nat) : Occupancy :=
  if 2 ≤ oppCnt then Occupancy.Block
  else if oppCnt = 1 then
    if rules.can_hit then Occupancy.Hit
    else if rules.pin_instead then Occupancy.Pin
    else Occupancy.LandFree
  else Occupancy.LandFree

/-- Modelled from the spec: the usable die values for one move kind, the
distinct remaining die values plus the sum of the two rolled dice when the
combined-move flag for that kind is on, the dice differ and both are still
unused. -/
def diceValues (combinedFlag : Bool) (d1 d2 : Nat) (remaining : List Nat) : List Nat :=
  remaining.dedup ++
    (if combinedFlag && decide (d1 ≠ d2) && decide (d1 ∈ remaining) && decide (d2 ∈ remaining)
     then [d1 + d2] else [])

/-- Modelled from the spec: the bar entry base of section 4.2, one step
outside the board on the far end of the movement direction. -/
def entryBase (rules : RuleConfig) (b : EBoard) (p : Player) : Int :=
  if rules.direction p = -1 then (b.size : Int) + 1 else 0

/-- Modelled from the spec: the entry point for a die value,
entry_base(color) plus direction(color) times the die value. -/
def entryTarget (rules : RuleConfig) (b : EBoard) (p : Player) (v : Nat) : Int :=
  entryBase rules b p + rules.direction p * (v : Int)

/-- Whether a computed target lies on the board. -/
def inBoard (b : EBoard) (t : Int) : Bool :=
  decide (1 ≤ t) && decide (t ≤ (b.size : Int))

/-- Modelled from the spec: whether a point still lets the given player move
a checker away;  a pinned point whose single checker of that color is
co-occupied by the opponent holds that player pinned
(src/RULES_IMPLEMENTATION.md, pinning logic). -/
def movableSource (p : Player) (pt : EPoint) : Bool :=
  decide (0 < pt.countOf p) &&
    !(pt.pinned && decide (pt.countOf p = 1) && decide (0 < pt.countOf p.opp))

/-- Modelled from the spec: the source points of step 2 of the generator,
the points holding at least one non-pinned checker of the mover. -/
def sourcePoints (b : EBoard) (p : Player) : List Nat :=
  (b.points.filter (movableSource p)).map (fun pt => pt.number)

/-- Modelled from the spec: the target of a normal move, from_point plus die
value times direction(color). -/
def normalTarget (rules : RuleConfig) (p : Player) (fromPt : Nat) (v : Nat) : Int :=
  (fromPt : Int) + rules.direction p * (v : Int)

/-- Modelled from the spec: the Enter candidates of step 1 of the generator,
one candidate per usable die value whose entry point is on the board and not
blocked. -/
def enterCandidates (rules : RuleConfig) (b : EBoard) (p : Player)
    (values : List Nat) : List LegalMove :=
  values.filterMap (fun v =>
    let t := entryTarget rules b p v
    if inBoard b t && decide (resolveOccupancy rules (oppCount b p t.toNat) ≠ Occupancy.Block)
    then some ⟨MoveType.enter, none, some t.toNat, v⟩ else none)

/-- Modelled from the spec: the Normal candidates of step 2 of the
generator, one candidate per source point and usable die value whose target
is on the board and not blocked. -/
def normalCandidates (rules : RuleConfig) (b : EBoard) (p : Player)
    (values : List Nat) : List LegalMove :=
  (sourcePoints b p).flatMap (fun fp =>
    values.filterMap (fun v =>
      let t := normalTarget rules p fp v
      if inBoard b t && decide (resolveOccupancy rules (oppCount b p t.toNat) ≠ Occupancy.Block)
      then some ⟨MoveType.normal, some fp, some t.toNat, v⟩ else none))

/-- Modelled from the spec: the pip distance of a point from the edge the
player bears off over; bearing off from a point takes a die equal to this
distance. -/
def homeDistance (rules : RuleConfig) (b : EBoard) (p : Player) (n : Nat) : Nat :=
  if rules.direction p = -1 then n else b.size + 1 - n

/-- Modelled from the spec: the point at a given pip distance from the
bear-off edge. -/
def pointAtDistance (rules : RuleConfig) (b : EBoard) (p : Player) (d : Nat) : Nat :=
  if rules.direction p = -1 then d else b.size + 1 - d

/-- Whether a point lies in the six-point home quadrant of the player. -/
def inHome (rules : RuleConfig) (b : EBoard) (p : Player) (n : Nat) : Bool :=
  decide (1 ≤ homeDistance rules b p n) && decide (homeDistance rules b p n ≤ 6)

/-- Modelled from the spec: all checkers of the player that are not borne
off sit in the home quadrant and none wait on the bar. -/
def allInHome (rules : RuleConfig) (b : EBoard) (p : Player) : Bool :=
  decide (b.barOf p = 0) &&
    b.points.all (fun pt => decide (pt.countOf p = 0) || inHome rules b p pt.number)

/-- Modelled from the spec: whether bear-off candidates are considered at
all, per the bearing_off.enabled and all_in_outer_board flags. -/
def bearOffEligible (rules : RuleConfig) (b : EBoard) (p : Player) : Bool :=
  rules.bearing_off_enabled && (!rules.all_in_outer_board || allInHome rules b p)

/-- The pip distances of the points still holding checkers of the player. -/
def occupiedDistances (rules : RuleConfig) (b : EBoard) (p : Player) : List Nat :=
  ((b.points.filter (fun pt => decide (0 < pt.countOf p))).map
    (fun pt => homeDistance rules b p pt.number))

/-- The farthest occupied pip distance, 0 when none is occupied. -/
def maxOccupied (rules : RuleConfig) (b : EBoard) (p : Player) : Nat :=
  (occupiedDistances rules b p).foldr max 0

/-- Modelled from the spec: the BearOff candidates of step 3 of the
generator.  A die bears off the checker exactly that many pips from the
edge; when that point holds no movable checker and the die overshoots every
occupied point, the farthest checker bears off instead. -/
def bearOffCandidates (rules : RuleConfig) (b : EBoard) (p : Player)
    (values : List Nat) : List LegalMove :=
  if bearOffEligible rules b p then
    values.filterMap (fun v =>
      let exactPt := pointAtDistance rules b p v
      if movableSource p (b.getPoint exactPt) then
        some ⟨MoveType.bear_off, some exactPt, none, v⟩
      else
        let m := maxOccupied rules b p
        if decide (m < v) && decide (0 < m) &&
            movableSource p (b.getPoint (pointAtDistance rules b p m)) then
          some ⟨MoveType.bear_off, some (pointAtDistance rules b p m), none, v⟩
        else none)
  else []

/-- Modelled from the spec: the LegalMoveGenerator of section 4.2.  With
checkers on the bar only Enter candidates are produced; otherwise the Normal
and BearOff candidates, deduplicated, each move kind using its own
combined-move policy. -/
def get_legal_moves (rules : RuleConfig) (b : EBoard) (p : Player)
    (d1 d2 : Nat) (remaining : List Nat) : List LegalMove :=
  if 0 < b.barOf p then
    enterCandidates rules b p (diceValues rules.combined_enter d1 d2 remaining)
  else
    (normalCandidates rules b p (diceValues rules.combined_normal d1 d2 remaining) ++
      bearOffCandidates rules b p (diceValues rules.combined_bear_off d1 d2 remaining)).dedup

/-- Modelled from the spec: the MoveValidator of section 4.3.  It re-checks
a proposed candidate rule by rule and returns the legality verdict together
with an ordered, never empty list of explanation strings naming the failing
rule category. -/
def validateMove (rules : RuleConfig) (b : EBoard) (p : Player) (d1 d2 : Nat)
    (remaining : List Nat) (c : LegalMove) : Bool × List String :=
  if 0 < b.barOf p ∧ c.move_type ≠ MoveType.enter then
    (false, ["forced-move: checkers on the bar must enter before any other move"])
  else
    match c.move_type with
    | MoveType.enter =>
      if b.barOf p = 0 then (false, ["movement: no checker waits on the bar"])
      else if c.die_value ∉ diceValues rules.combined_enter d1 d2 remaining then
        (false, ["movement: this die value is not available"])
      else if ¬ inBoard b (entryTarget rules b p c.die_value) = true then
        (false, ["movement: the entry point is off the board"])
      else if c.to_point ≠ some (entryTarget rules b p c.die_value).toNat then
        (false, ["movement: the entry point does not match the die value"])
      else if resolveOccupancy rules (oppCount b p (entryTarget rules b p c.die_value).toNat) =
          Occupancy.Block then
        (false, ["hitting: the entry point is blocked by two or more opponent checkers"])
      else (true, ["entry from the bar is legal"])
    | MoveType.normal =>
      match c.from_point with
      | none => (false, ["movement: a normal move needs a source point"])
      | some f =>
        if f ∉ sourcePoints b p then
          (false, ["movement: no movable checker sits on the source point"])
        else if c.die_value ∉ diceValues rules.combined_normal d1 d2 remaining then
          (false, ["movement: this die value is not available"])
        else if ¬ inBoard b (normalTarget rules p f c.die_value) = true then
          (false, ["movement: the target point is off the board"])
        else if c.to_point ≠ some (normalTarget rules p f c.die_value).toNat then
          (false, ["movement: the target point does not match the die value"])
        else if resolveOccupancy rules (oppCount b p (normalTarget rules p f c.die_value).toNat) =
            Occupancy.Block then
          (false, ["hitting: the destination is blocked by two or more opponent checkers"])
        else (true, ["the move is legal"])
    | MoveType.bear_off =>
      if ¬ bearOffEligible rules b p = true then
        (false, ["bearing-off: bearing off is not allowed in this position"])
      else
        match c.from_point with
        | none => (false, ["bearing-off: a bear-off needs a source point"])
        | some f =>
          if c.die_value ∉ diceValues rules.combined_bear_off d1 d2 remaining then
            (false, ["movement: this die value is not available"])
          else if movableSource p (b.getPoint (pointAtDistance rules b p c.die_value)) then
            if f = pointAtDistance rules b p c.die_value then (true, ["the bear-off is legal"])
            else (false, ["bearing-off: a checker sits exactly at the die distance"])
          else if decide (maxOccupied rules b p < c.die_value) &&
              decide (0 < maxOccupied rules b p) &&
              movableSource p (b.getPoint (pointAtDistance rules b p (maxOccupied rules b p))) &&
              decide (f = pointAtDistance rules b p (maxOccupied rules b p)) then
            (true, ["the overshoot bear-off from the farthest point is legal"])
          else (false, ["bearing-off: no checker may bear off with this die value"])

/-- Rewrite one point of the board in place, leaving every other point
untouched. -/
def updatePoint (b : EBoard) (n : Nat) (f : EPoint → EPoint) : EBoard :=
  { b with points := b.points.map (fun pt => if pt.number = n then f pt else pt) }

/-- Add one checker of a player to a point. -/
def EPoint.addTo (pt : EPoint) : Player → EPoint
  | Player.white => { pt with white_count := pt.white_count + 1 }
  | Player.black => { pt with black_count := pt.black_count + 1 }

/-- Remove one checker of a player from a point. -/
def EPoint.removeFrom (pt : EPoint) : Player → EPoint
  | Player.white => { pt with white_count := pt.white_count - 1 }
  | Player.black => { pt with black_count := pt.black_count - 1 }

/-- Add one checker of a player to the bar. -/
def EBoard.addBar (b : EBoard) : Player → EBoard
  | Player.white => { b with bar_white := b.bar_white + 1 }
  | Player.black => { b with bar_black := b.bar_black + 1 }

/-- Remove one checker of a player from the bar. -/
def EBoard.subBar (b : EBoard) : Player → EBoard
  | Player.white => { b with bar_white := b.bar_white - 1 }
  | Player.black => { b with bar_black := b.bar_black - 1 }

/-- Add one checker of a player to the borne-off count. -/
def EBoard.addOff (b : EBoard) : Player → EBoard
  | Player.white => { b with borne_off_white := b.borne_off_white + 1 }
  | Player.black => { b with borne_off_black := b.borne_off_black + 1 }

/-- Modelled from the spec: landing a checker of a player on a destination
point per section 4.3.  A hit sends the single opponent checker to the bar,
a pin leaves it co-occupied and marks the point pinned, a free landing just
adds the checker. -/
def landOn (rules : RuleConfig) (b : EBoard) (p : Player) (t : Nat) : EBoard :=
  match resolveOccupancy rules (oppCount b p t) with
  | Occupancy.Block => b
  | Occupancy.Hit =>
    updatePoint (b.addBar p.opp) t (fun pt => (pt.removeFrom p.opp).addTo p)
  | Occupancy.Pin =>
    updatePoint b t (fun pt => { pt.addTo p with pinned := true })
  | Occupancy.LandFree => updatePoint b t (fun pt => pt.addTo p)

/-- Modelled from the spec: the board mutation of a validated move per
section 4.3: decrement the source point or bar, then land on the destination
or increment the borne-off count. -/
def applyMove (rules : RuleConfig) (b : EBoard) (p : Player) (c : LegalMove) : EBoard :=
  match c.move_type, c.from_point, c.to_point with
  | MoveType.normal, some f, some t =>
    landOn rules (updatePoint b f (fun pt => pt.removeFrom p)) p t
  | MoveType.enter, _, some t => landOn rules (b.subBar p) p t
  | MoveType.bear_off, some f, _ =>
    (updatePoint b f (fun pt => pt.removeFrom p)).addOff p
  | _, _, _ => b

/-- Modelled from the spec: the make_move operation of section 6, a
validator-gated application.  A rejected candidate returns the untouched
board together with the explanations. -/
def make_move (rules : RuleConfig) (b : EBoard) (p : Player) (d1 d2 : Nat)
    (remaining : List Nat) (c : LegalMove) : Bool × List String × EBoard :=
  let r := validateMove rules b p d1 d2 remaining c
  if r.1 then (true, r.2, applyMove rules b p c) else (false, r.2, b)

/-- Modelled from the spec: the doubles_uses default of section 4.1, an
absent field resolves to 4 (src/RULES_IMPLEMENTATION.md, missing config
fields; the field is optional in the client VariantRules type,
src/unnamed/part_010). -/
def resolveDoublesUses (cfgField : Option Nat) : Nat :=
  cfgField.getD 4

/-- Modelled from the spec: the dice expansion of roll() in section 4.4.
Doubles expand to doubles_uses copies of the value, an unequal roll gives
the two dice. -/
def initialRemainingDice (uses : Nat) (d1 d2 : Nat) : List Nat :=
  if d1 = d2 then List.replicate uses d1 else [d1, d2]

/-- Total number of checkers a board accounts for: both bars, both borne-off
counts and every point stack of either color. -/
def EBoard.totalCheckers (b : EBoard) : Nat :=
  b.bar_white + b.bar_black + b.borne_off_white + b.borne_off_black +
    (b.points.map (fun pt => pt.white_count + pt.black_count)).sum

/-- No point holds checkers of both colors, the section 3 invariant. -/
def noCoexist (b : EBoard) : Prop :=
  ∀ pt ∈ b.points, pt.white_count = 0 ∨ pt.black_count = 0

/-- Modelled from the spec: the per-game session state the four external
operations act on. -/
structure Session where
  rules : RuleConfig
  board : EBoard
  player : Player
  d1 : Nat
  d2 : Nat
  remaining : List Nat
deriving DecidableEq

/-- Modelled from the spec: the get_legal_moves operation of section 6,
which reads the session and returns it unchanged beside the move list. -/
def getLegalMovesOp (s : Session) : List LegalMove × Session :=
  (get_legal_moves s.rules s.board s.player s.d1 s.d2 s.remaining, s)

/-- The session state after some number of get_legal_moves calls. -/
def iterGet (s : Session) : Nat → Session
  | 0 => s
  | n + 1 => (getLegalMovesOp (iterGet s n)).2

/-- Cache effect of useLegalMoves (src/app/src/hooks/useGameApi.ts): the
hook defines no cache write for a completed query, so the cached game state
is left untouched whatever the query returns. -/
def useLegalMovesCacheUpdate (cache : Option GameState)
    (_result : List LegalMove × Option (Nat × Nat)) : Option GameState :=
  cache

/-- A 24-point board built from a table of white and black counts. -/
def mkPoints (f : Nat → Nat × Nat) : List EPoint :=
  (List.range' 1 24).map (fun n => ⟨n, (f n).1, (f n).2, false⟩)

/-- The rule configuration of the standard variant: opposite directions,
hitting, no pinning, four doubles uses, combined normal moves, bear-off once
all checkers reached the home quadrant. -/
def stdRules : RuleConfig :=
  ⟨-1, 1, true, false, 4, true, false, false, true, true, true, true⟩

/-- The standard starting layout, white moving down from 24 towards 1. -/
def stdBoard : EBoard :=
  ⟨24,
    mkPoints (fun n =>
      if n = 24 then (2, 0)
      else if n = 13 then (5, 0)
      else if n = 8 then (3, 0)
      else if n = 6 then (5, 0)
      else if n = 1 then (0, 2)
      else if n = 12 then (0, 5)
      else if n = 17 then (0, 3)
      else if n = 19 then (0, 5)
      else (0, 0)),
    0, 0, 0, 0⟩

/-- A pin-instead rule configuration in the style of Plakoto and Gioul. -/
def pinRules : RuleConfig :=
  ⟨-1, 1, false, true, 4, true, false, false, true, true, true, true⟩

/-- A small position of a pin-instead game: two white checkers on point 6
and a black blot on point 3. -/
def pinBoard : EBoard :=
  ⟨24, mkPoints (fun n => if n = 6 then (2, 0) else if n = 3 then (0, 1) else (0, 0)),
    0, 0, 13, 14⟩

/-- The pin move white plays on pinBoard with a die of three: 6 to 3,
landing on the black blot. -/
def pinMove : LegalMove :=
  ⟨MoveType.normal, some 6, some 3, 3⟩

/-- A sample client game state used to instantiate the client-side theorems
on concrete inputs. -/
def sampleGameState : GameState :=
  ⟨"g1", "standard",
    ⟨[⟨20, 0, 2⟩, ⟨22, 0, 1⟩, ⟨24, 2, 0⟩], 1, 0, 0, 0, some Player.white,
      some (3, 1), false, none⟩,
    [⟨MoveType.enter, none, some 22, 3⟩], false⟩

/-- C8: a doubles roll under the default doubles_uses = 4 yields exactly
four copies of the rolled value as the initial remaining dice, doubles_uses
copies in general, while an unequal roll yields the two dice. -/
theorem c8_doubles_expansion :
    (∀ v : Nat, initialRemainingDice (resolveDoublesUses none) v v = [v, v, v, v]) ∧
    (∀ uses v : Nat, initialRemainingDice uses v v = List.replicate uses v) ∧
    (∀ uses d1 d2 : Nat, d1 ≠ d2 → initialRemainingDice uses d1 d2 = [d1, d2]) := by
  refine ⟨?_, ?_, ?_⟩
  · intro v
    simp [initialRemainingDice, resolveDoublesUses, List.replicate_succ]
  · intro uses v
    simp [initialRemainingDice]
  · intro uses d1 d2 h
    simp [initialRemainingDice, h]

/-- Witness for C8 at the concrete rolls 3-3 and 2-5. -/
theorem c8_doubles_expansion_witness :
    initialRemainingDice (resolveDoublesUses none) 3 3 = [3, 3, 3, 3] ∧
    initialRemainingDice 4 2 5 = [2, 5] :=
  ⟨c8_doubles_expansion.1 3, c8_doubles_expansion.2.2 4 2 5 (by decide)⟩

/-- C10: the bar uses the sentinel point number 0, which is never one of the
rendered board points 1..24, and the bar area emits onPointClick(0), by
mouse click or keyboard activation, only when the current player has at
least one checker on their own bar. -/
theorem c10_bar_sentinel :
    (0 ∉ renderedPointNumbers ∧ ∀ n ∈ renderedPointNumbers, 1 ≤ n ∧ n ≤ 24) ∧
    (∀ board cp k, barClickEmit board cp = some k →
      k = 0 ∧ hasBarCheckers board cp = true) ∧
    (∀ board cp key k, barKeyDownEmit board cp key = some k →
      k = 0 ∧ hasBarCheckers board cp = true) ∧
    (∀ board cp, hasBarCheckers board cp = true →
      (cp = some Player.white ∧ 0 < board.bar_white) ∨
        (cp = some Player.black ∧ 0 < board.bar_black)) := by
  refine ⟨by decide, ?_, ?_, ?_⟩
  · intro board cp k h
    unfold barClickEmit at h
    split at h
    · cases h
      exact ⟨rfl, by assumption⟩
    · cases h
  · intro board cp key k h
    unfold barKeyDownEmit at h
    split at h
    · rename_i hcond
      simp only [Bool.and_eq_true] at hcond
      cases h
      exact ⟨rfl, hcond.1⟩
    · cases h
  · intro board cp h
    unfold hasBarCheckers at h
    simp only [Bool.or_eq_true, Bool.and_eq_true, decide_eq_true_eq] at h
    exact h

/-- Witness for C10 at a concrete board with a white checker on the bar. -/
theorem c10_bar_sentinel_witness :
    (0 = 0 ∧ hasBarCheckers sampleGameState.board (some Player.white) = true) ∧
    ((some Player.white = some Player.white ∧ 0 < sampleGameState.board.bar_white) ∨
      (some Player.white = some Player.black ∧ 0 < sampleGameState.board.bar_black)) :=
  ⟨c10_bar_sentinel.2.1 sampleGameState.board (some Player.white) 0 (by decide),
    c10_bar_sentinel.2.2.2 sampleGameState.board (some Player.white) (by decide)⟩

/-- C9: get_legal_moves is idempotent and side-effect-free: any number of
calls returns the same list and leaves the session unchanged, and in the
client the polling query hook (every second while no dice are rolled)
performs no cache mutation. -/
theorem c9_get_legal_moves_idempotent :
    (∀ (s : Session) (n : Nat), iterGet s n = s) ∧
    (∀ (s : Session) (n m : Nat),
      (getLegalMovesOp (iterGet s n)).1 = (getLegalMovesOp (iterGet s m)).1) ∧
    (∀ (cache : Option GameState) (r : List LegalMove × Option (Nat × Nat)),
      useLegalMovesCacheUpdate cache r = cache) ∧
    (∀ (moves : List LegalMove),
      refetchIntervalForLegalMoves (some (moves, none)) = some 1000) ∧
    (∀ (moves : List LegalMove) (d : Nat × Nat),
      refetchIntervalForLegalMoves (some (moves, some d)) = none) ∧
    refetchIntervalForLegalMoves none = none := by
  have hiter : ∀ (s : Session) (n : Nat), iterGet s n = s := by
    intro s n
    induction n with
    | zero => rfl
    | succ k ih => simp [iterGet, getLegalMovesOp, ih]
  refine ⟨hiter, ?_, ?_, ?_, ?_, rfl⟩
  · intro s n m
    rw [hiter s n, hiter s m]
  · intro cache r
    rfl
  · intro moves
    rfl
  · intro moves d
    rfl

/-- The validator never returns an empty explanation list: every verdict,
legal or not, carries at least one explanation string. -/
lemma validateMove_expl_ne_nil (rules : RuleConfig) (b : EBoard) (p : Player)
    (d1 d2 : Nat) (remaining : List Nat) (c : LegalMove) :
    (validateMove rules b p d1 d2 remaining c).2 ≠ [] := by
  unfold validateMove
  split <;> try simp
  all_goals try (split <;> try simp)
  all_goals try (split <;> try simp)
  all_goals try (split <;> try simp)
  all_goals try (split <;> try simp)
  all_goals try (split <;> try simp)
  all_goals try (split <;> try simp)
  all_goals try (split <;> try simp)

/-- C4: a make_move attempt rejected by the validator never mutates the
board and always carries at least one explanation string, and in the client
a non-ok response makes makeMove throw the server detail while the cached
game state, replaced only on success, stays unchanged. -/
theorem c4_illegal_move_no_mutation :
    (∀ (rules : RuleConfig) (b : EBoard) (p : Player) (d1 d2 : Nat)
        (rem : List Nat) (c : LegalMove),
      (validateMove rules b p d1 d2 rem c).1 = false →
        (make_move rules b p d1 d2 rem c).2.2 = b ∧
          (make_move rules b p d1 d2 rem c).2.1 ≠ [] ∧
          (make_move rules b p d1 d2 rem c).1 = false) ∧
    (∀ (resp : MoveResponse) (cache : Option GameState), resp.ok = false →
      clientMakeMove resp = Except.error resp.detail ∧
        updateCacheOnMakeMove cache resp = cache) := by
  constructor
  · intro rules b p d1 d2 rem c h
    unfold make_move
    simp only [h]
    exact ⟨rfl, validateMove_expl_ne_nil rules b p d1 d2 rem c, rfl⟩
  · intro resp cache h
    unfold updateCacheOnMakeMove clientMakeMove
    simp [h]

/-- Witness for C4: a normal move from an empty point on the standard start
board is rejected with the board untouched, and a concrete failed response
leaves a concrete cache untouched. -/
theorem c4_illegal_move_no_mutation_witness :
    ((make_move stdRules stdBoard Player.white 6 5 [6, 5]
        ⟨MoveType.normal, some 2, some 1, 1⟩).2.2 = stdBoard ∧
      (make_move stdRules stdBoard Player.white 6 5 [6, 5]
        ⟨MoveType.normal, some 2, some 1, 1⟩).2.1 ≠ [] ∧
      (make_move stdRules stdBoard Player.white 6 5 [6, 5]
        ⟨MoveType.normal, some 2, some 1, 1⟩).1 = false) ∧
    (clientMakeMove ⟨false, "illegal move", false, [], sampleGameState⟩ =
        Except.error "illegal move" ∧
      updateCacheOnMakeMove (some sampleGameState)
          ⟨false, "illegal move", false, [], sampleGameState⟩ =
        some sampleGameState) :=
  ⟨c4_illegal_move_no_mutation.1 stdRules stdBoard Player.white 6 5 [6, 5]
      ⟨MoveType.normal, some 2, some 1, 1⟩ (by decide),
    c4_illegal_move_no_mutation.2 ⟨false, "illegal move", false, [], sampleGameState⟩
      (some sampleGameState) rfl⟩

/-- Unfolding membership in the Enter candidate list. -/
lemma mem_enterCandidates {rules : RuleConfig} {b : EBoard} {p : Player}
    {vals : List Nat} {c : LegalMove} :
    c ∈ enterCandidates rules b p vals ↔ ∃ v ∈ vals,
      inBoard b (entryTarget rules b p v) = true ∧
      resolveOccupancy rules (oppCount b p (entryTarget rules b p v).toNat) ≠ Occupancy.Block ∧
      c = ⟨MoveType.enter, none, some (entryTarget rules b p v).toNat, v⟩ := by
  simp only [enterCandidates, List.mem_filterMap, Option.ite_none_right_eq_some,
    Bool.and_eq_true, decide_eq_true_eq, Option.some.injEq]
  constructor
  · rintro ⟨v, hv, ⟨hin, hres⟩, hc⟩
    exact ⟨v, hv, hin, hres, hc.symm⟩
  · rintro ⟨v, hv, hin, hres, hc⟩
    exact ⟨v, hv, ⟨hin, hres⟩, hc.symm⟩

/-- Unfolding membership in the Normal candidate list. -/
lemma mem_normalCandidates {rules : RuleConfig} {b : EBoard} {p : Player}
    {vals : List Nat} {c : LegalMove} :
    c ∈ normalCandidates rules b p vals ↔ ∃ f ∈ sourcePoints b p, ∃ v ∈ vals,
      inBoard b (normalTarget rules p f v) = true ∧
      resolveOccupancy rules (oppCount b p (normalTarget rules p f v).toNat) ≠ Occupancy.Block ∧
      c = ⟨MoveType.normal, some f, some (normalTarget rules p f v).toNat, v⟩ := by
  simp only [normalCandidates, List.mem_flatMap, List.mem_filterMap,
    Option.ite_none_right_eq_some, Bool.and_eq_true, decide_eq_true_eq, Option.some.injEq]
  constructor
  · rintro ⟨f, hf, v, hv, ⟨hin, hres⟩, hc⟩
    exact ⟨f, hf, v, hv, hin, hres, hc.symm⟩
  · rintro ⟨f, hf, v, hv, hin, hres, hc⟩
    exact ⟨f, hf, v, hv, ⟨hin, hres⟩, hc.symm⟩

/-- Unfolding membership in the BearOff candidate list. -/
lemma mem_bearOffCandidates {rules : RuleConfig} {b : EBoard} {p : Player}
    {vals : List Nat} {c : LegalMove} :
    c ∈ bearOffCandidates rules b p vals →
      bearOffEligible rules b p = true ∧ ∃ v ∈ vals,
        ((movableSource p (b.getPoint (pointAtDistance rules b p v)) = true ∧
          c = ⟨MoveType.bear_off, some (pointAtDistance rules b p v), none, v⟩) ∨
         (maxOccupied rules b p < v ∧ 0 < maxOccupied rules b p ∧
          movableSource p (b.getPoint (pointAtDistance rules b p v)) = false ∧
          movableSource p
            (b.getPoint (pointAtDistance rules b p (maxOccupied rules b p))) = true ∧
          c = ⟨MoveType.bear_off, some (pointAtDistance rules b p (maxOccupied rules b p)),
                none, v⟩)) := by
  intro h
  unfold bearOffCandidates at h
  split at h
  case isFalse => cases h
  case isTrue helig =>
    refine ⟨helig, ?_⟩
    rw [List.mem_filterMap] at h
    obtain ⟨v, hv, heq⟩ := h
    refine ⟨v, hv, ?_⟩
    dsimp only at heq
    split at heq
    case isTrue hmov =>
      cases heq
      exact Or.inl ⟨hmov, rfl⟩
    case isFalse hmov =>
      split at heq
      case isTrue hcond =>
        cases heq
        simp only [Bool.and_eq_true, decide_eq_true_eq] at hcond
        exact Or.inr ⟨hcond.1.1, hcond.1.2, Bool.eq_false_iff.mpr hmov, hcond.2, rfl⟩
      case isFalse => cases heq

/-- A non-blocking occupancy resolution means fewer than two opponent
checkers sit on the destination, whatever the hitting flags say. -/
lemma oppCnt_lt_two_of_not_block {rules : RuleConfig} {oppCnt : Nat}
    (h : resolveOccupancy rules oppCnt ≠ Occupancy.Block) : oppCnt < 2 := by
  by_contra hge
  exact h (by simp [resolveOccupancy, Nat.le_of_not_lt hge])

/-- C1: the legal-move generator never returns a candidate whose destination
point holds two or more opponent checkers unless the variant can hit or pins
instead; in this engine such a destination is in fact never produced at
all, so the claimed exception clause is satisfied a fortiori. -/
theorem c1_no_blocked_destination :
    ∀ (rules : RuleConfig) (b : EBoard) (p : Player) (d1 d2 : Nat)
      (rem : List Nat) (c : LegalMove) (t : Nat),
      c ∈ get_legal_moves rules b p d1 d2 rem → c.to_point = some t →
        oppCount b p t < 2 ∧
          (2 ≤ oppCount b p t → rules.can_hit = true ∨ rules.pin_instead = true) := by
  intro rules b p d1 d2 rem c t hmem hto
  suffices h : oppCount b p t < 2 by
    exact ⟨h, fun hge => absurd hge (Nat.not_le_of_lt h)⟩
  unfold get_legal_moves at hmem
  split at hmem
  · obtain ⟨v, _, _, hres, hc⟩ := mem_enterCandidates.mp hmem
    subst hc
    cases hto
    exact oppCnt_lt_two_of_not_block hres
  · rw [List.mem_dedup, List.mem_append] at hmem
    rcases hmem with hmem | hmem
    · obtain ⟨f, _, v, _, _, hres, hc⟩ := mem_normalCandidates.mp hmem
      subst hc
      cases hto
      exact oppCnt_lt_two_of_not_block hres
    · obtain ⟨_, v, _, hcase⟩ := mem_bearOffCandidates hmem
      rcases hcase with ⟨_, hc⟩ | ⟨_, _, _, _, hc⟩ <;> (subst hc; cases hto)

/-- Witness for C1 on a concrete generated enter move of the standard game:
the entry destination 20 holds no pair of black checkers. -/
theorem c1_no_blocked_destination_witness :
    oppCount { stdBoard with bar_white := 1 } Player.white 20 < 2 ∧
      (2 ≤ oppCount { stdBoard with bar_white := 1 } Player.white 20 →
        stdRules.can_hit = true ∨ stdRules.pin_instead = true) :=
  c1_no_blocked_destination stdRules { stdBoard with bar_white := 1 } Player.white 6 5
    [6, 5] ⟨MoveType.enter, none, some 20, 5⟩ 20 (by decide) rfl

/-- C2: with checkers on the bar only Enter candidates are generated, and in
the client handlePointClick, when the bar count is positive and enter moves
exist, only enter moves become the valid-move set. -/
theorem c2_forced_bar_entry :
    (∀ (rules : RuleConfig) (b : EBoard) (p : Player) (d1 d2 : Nat)
        (rem : List Nat) (c : LegalMove),
      0 < b.barOf p → c ∈ get_legal_moves rules b p d1 d2 rem →
        c.move_type = MoveType.enter) ∧
    (∀ (gs : GameState) (vm : List LegalMove) (pn : Nat) (dd : Nat × Nat),
      gs.board.dice = some dd → 0 < barCountOf gs.board →
      gs.legal_moves.filter (fun m => decide (m.move_type = MoveType.enter)) ≠ [] →
        ∀ m ∈ (handlePointClick gs none vm pn).validMoves,
          m.move_type = MoveType.enter) := by
  constructor
  · intro rules b p d1 d2 rem c hbar hmem
    unfold get_legal_moves at hmem
    rw [if_pos hbar] at hmem
    obtain ⟨v, _, _, _, hc⟩ := mem_enterCandidates.mp hmem
    subst hc
    rfl
  · intro gs vm pn dd hdice hbar henter m hm
    unfold handlePointClick at hm
    rw [hdice] at hm
    simp only at hm
    rw [if_pos ⟨hbar, henter⟩] at hm
    by_cases hpn : pn ≠ 0
    · rw [if_pos hpn] at hm
      split at hm
      · simp only at hm
        cases hm
      · simp only at hm
        exact of_decide_eq_true (List.mem_filter.mp hm).2
    · rw [if_neg hpn] at hm
      simp only at hm
      exact of_decide_eq_true (List.mem_filter.mp hm).2

/-- Witness for C2: a standard position with a white checker on the bar
generates the enter move to 20, and a click on point 13 in the sample
client state leaves only enter moves highlighted. -/
theorem c2_forced_bar_entry_witness :
    (⟨MoveType.enter, none, some 20, 5⟩ : LegalMove).move_type = MoveType.enter ∧
      ∀ m ∈ (handlePointClick sampleGameState none [] 13).validMoves,
        m.move_type = MoveType.enter :=
  ⟨c2_forced_bar_entry.1 stdRules { stdBoard with bar_white := 1 } Player.white 6 5 [6, 5]
      ⟨MoveType.enter, none, some 20, 5⟩ (by decide) (by decide),
    c2_forced_bar_entry.2 sampleGameState [] 13 (3, 1) rfl (by decide) (by decide)⟩

/-- With equal dice the usable value list never gains the combined value:
it is just the deduplicated remaining list. -/
lemma diceValues_equal (flag : Bool) (d : Nat) (rem : List Nat) :
    diceValues flag d d rem = rem.dedup := by
  simp [diceValues]

/-- The combined value is usable when the flag is on, the dice differ and
both dice are still unused. -/
lemma sum_mem_diceValues {d1 d2 : Nat} {rem : List Nat} (hne : d1 ≠ d2)
    (h1 : d1 ∈ rem) (h2 : d2 ∈ rem) : d1 + d2 ∈ diceValues true d1 d2 rem := by
  simp [diceValues, hne, h1, h2]

/-- Every generated candidate consumes a usable value of its move kind. -/
lemma die_value_mem_of_mem {rules : RuleConfig} {b : EBoard} {p : Player}
    {d1 d2 : Nat} {rem : List Nat} {c : LegalMove}
    (h : c ∈ get_legal_moves rules b p d1 d2 rem) :
    c.die_value ∈ diceValues rules.combined_enter d1 d2 rem ∨
      c.die_value ∈ diceValues rules.combined_normal d1 d2 rem ∨
      c.die_value ∈ diceValues rules.combined_bear_off d1 d2 rem := by
  unfold get_legal_moves at h
  split at h
  · obtain ⟨v, hv, _, _, hc⟩ := mem_enterCandidates.mp h
    subst hc
    exact Or.inl hv
  · rw [List.mem_dedup, List.mem_append] at h
    rcases h with h | h
    · obtain ⟨f, _, v, hv, _, _, hc⟩ := mem_normalCandidates.mp h
      subst hc
      exact Or.inr (Or.inl hv)
    · obtain ⟨_, v, hv, hcase⟩ := mem_bearOffCandidates h
      rcases hcase with ⟨_, hc⟩ | ⟨_, _, _, _, hc⟩ <;> subst hc <;>
        exact Or.inr (Or.inr hv)

/-- C5: with unequal dice and combined normal moves enabled, the generator
exposes a Normal candidate whose die value is the sum of the dice whenever a
movable checker has the summed target free; with equal dice no candidate
carries the doubled value; and the client classifies a highlighted
destination as a combined move exactly when the matched candidate is normal,
its die value is the sum of the dice, and the dice differ. -/
theorem c5_combined_moves :
    (∀ (rules : RuleConfig) (b : EBoard) (p : Player) (d1 d2 : Nat)
        (rem : List Nat) (f : Nat),
      rules.combined_normal = true → d1 ≠ d2 → d1 ∈ rem → d2 ∈ rem →
      b.barOf p = 0 → f ∈ sourcePoints b p →
      inBoard b (normalTarget rules p f (d1 + d2)) = true →
      resolveOccupancy rules
          (oppCount b p (normalTarget rules p f (d1 + d2)).toNat) ≠ Occupancy.Block →
        (⟨MoveType.normal, some f, some (normalTarget rules p f (d1 + d2)).toNat,
            d1 + d2⟩ : LegalMove) ∈ get_legal_moves rules b p d1 d2 rem) ∧
    (∀ (rules : RuleConfig) (b : EBoard) (p : Player) (uses d : Nat)
        (c : LegalMove), 0 < d →
      c ∈ get_legal_moves rules b p d d (initialRemainingDice uses d d) →
        c.die_value ≠ d + d) ∧
    (∀ (board : BoardState) (vm : List LegalMove) (sp : Option Nat) (pn : Nat),
      isCombinedMove board vm sp pn = true ↔
        ∃ mv d1 d2, findValidMove vm sp pn = some mv ∧ board.dice = some (d1, d2) ∧
          mv.move_type = MoveType.normal ∧ mv.die_value = d1 + d2 ∧ d1 ≠ d2) := by
  refine ⟨?_, ?_, ?_⟩
  · intro rules b p d1 d2 rem f hflag hne h1 h2 hbar hsrc hin hres
    unfold get_legal_moves
    rw [if_neg (by omega)]
    rw [List.mem_dedup, List.mem_append]
    refine Or.inl (mem_normalCandidates.mpr ⟨f, hsrc, d1 + d2, ?_, hin, hres, rfl⟩)
    rw [hflag]
    exact sum_mem_diceValues hne h1 h2
  · intro rules b p uses d c hd hmem
    have hall : ∀ flag, diceValues flag d d (initialRemainingDice uses d d) ⊆
        List.replicate uses d := by
      intro flag
      rw [diceValues_equal, initialRemainingDice, if_pos rfl]
      exact List.dedup_subset _
    have hv := die_value_mem_of_mem hmem
    have hvd : c.die_value = d := by
      rcases hv with h | h | h <;>
        exact (List.eq_of_mem_replicate (hall _ h))
    rw [hvd]
    omega
  · intro board vm sp pn
    unfold isCombinedMove
    constructor
    · intro h
      split at h
      case h_1 mv d1 d2 heqf heqd =>
        simp only [Bool.and_eq_true, decide_eq_true_eq] at h
        exact ⟨mv, d1, d2, heqf, heqd, h.1.1, h.1.2, h.2⟩
      case h_2 => cases h
    · rintro ⟨mv, d1, d2, hfind, hdice, hty, hdie, hne⟩
      split
      case h_1 mv2 e1 e2 heqf heqd =>
        rw [hfind] at heqf
        rw [hdice] at heqd
        cases heqf
        cases heqd
        simp [hty, hdie, hne]
      case h_2 hno =>
        exact (hno mv d1 d2 hfind hdice).elim

/-- Witness for C5: on the standard start board with dice 2 and 5 white has
the combined move 13 to 6 with die value 7, while with dice 3-3 a generated
candidate never carries die value 6, and a concrete highlighted destination
classifies as combined. -/
theorem c5_combined_moves_witness :
    ((⟨MoveType.normal, some 13, some 6, 7⟩ : LegalMove) ∈
        get_legal_moves stdRules stdBoard Player.white 2 5 [2, 5]) ∧
    ((⟨MoveType.normal, some 24, some 21, 3⟩ : LegalMove).die_value ≠ 6) ∧
    (isCombinedMove
        ⟨[], 0, 0, 0, 0, some Player.white, some (2, 5), false, none⟩
        [⟨MoveType.normal, some 13, some 6, 7⟩] (some 13) 6 = true) := by
  refine ⟨?_, ?_, ?_⟩
  · have h := c5_combined_moves.1 stdRules stdBoard Player.white 2 5 [2, 5] 13
      rfl (by decide) (by decide) (by decide) (by decide) (by decide) (by decide)
      (by decide)
    simpa using h
  · exact c5_combined_moves.2.1 stdRules stdBoard Player.white 4 3
      ⟨MoveType.normal, some 24, some 21, 3⟩ (by decide) (by decide)
  · exact (c5_combined_moves.2.2
        ⟨[], 0, 0, 0, 0, some Player.white, some (2, 5), false, none⟩
        [⟨MoveType.normal, some 13, some 6, 7⟩] (some 13) 6).mpr
      ⟨⟨MoveType.normal, some 13, some 6, 7⟩, 2, 5, by decide, rfl, rfl, rfl, by decide⟩

/-- C3: every candidate a client path submits through make_move is an
element of the legal-move list of the game state (handleManualMove,
handleEnterMove, handleBearOff and every submission of handlePointClick all
look the move up in legal_moves first), and every candidate the generator
returns is accepted by the validator for the same board and dice state. -/
theorem c3_client_submits_generated_moves :
    (∀ (legal : List LegalMove) (f t : Nat) (m : LegalMove),
      handleManualMove legal f t = some m → m ∈ legal) ∧
    (∀ (legal : List LegalMove) (pt : Nat) (m : LegalMove),
      handleEnterMove legal pt = some m → m ∈ legal) ∧
    (∀ (legal : List LegalMove) (pt : Nat) (m : LegalMove),
      handleBearOff legal pt = some m → m ∈ legal) ∧
    (∀ (gs : GameState) (sp : Option Nat) (vm : List LegalMove) (pn : Nat)
        (m : LegalMove),
      (handlePointClick gs sp vm pn).submitted = some m → m ∈ gs.legal_moves) ∧
    (∀ (rules : RuleConfig) (b : EBoard) (p : Player) (d1 d2 : Nat)
        (rem : List Nat) (c : LegalMove),
      c ∈ get_legal_moves rules b p d1 d2 rem →
        (validateMove rules b p d1 d2 rem c).1 = true) := by
  refine ⟨?_, ?_, ?_, ?_, ?_⟩
  · intro legal f t m h
    exact List.mem_of_find?_eq_some h
  · intro legal pt m h
    exact List.mem_of_find?_eq_some h
  · intro legal pt m h
    exact List.mem_of_find?_eq_some h
  · intro gs sp vm pn m h
    unfold handlePointClick at h
    cases hd : gs.board.dice with
    | none =>
      rw [hd] at h
      cases h
    | some dd =>
      rw [hd] at h
      cases sp with
      | none =>
        dsimp only at h
        split at h
        · split at h
          · split at h
            case h_1 heq =>
              cases h
              exact List.mem_of_mem_filter (List.mem_of_find?_eq_some heq)
            case h_2 => cases h
          · cases h
        · cases h
      | some sp =>
        dsimp only at h
        split at h
        case h_1 mv heq =>
          cases h
          split at heq
          · exact List.mem_of_find?_eq_some heq
          · cases heq
        case h_2 =>
          split at h
          case h_1 heq =>
            cases h
            exact List.mem_of_find?_eq_some heq
          case h_2 => cases h
  · intro rules b p d1 d2 rem c hmem
    unfold get_legal_moves at hmem
    split at hmem
    case isTrue hbar =>
      obtain ⟨v, hv, hin, hres, hc⟩ := mem_enterCandidates.mp hmem
      subst hc
      simp [validateMove, hbar.ne', hv, hin, hres]
    case isFalse hbar =>
      rw [List.mem_dedup, List.mem_append] at hmem
      rcases hmem with hmem | hmem
      · obtain ⟨f, hf, v, hv, hin, hres, hc⟩ := mem_normalCandidates.mp hmem
        subst hc
        simp [validateMove, hbar, hf, hv, hin, hres]
      · obtain ⟨helig, v, hv, hcase⟩ := mem_bearOffCandidates hmem
        rcases hcase with ⟨hmov, hc⟩ | ⟨hm1, hm2, hmov, hmovf, hc⟩ <;> subst hc
        · simp [validateMove, hbar, helig, hv, hmov]
        · simp [validateMove, hbar, helig, hv, hmov, hm1, hm2, hmovf]

/-- Witness for C3 on concrete lookups and on a concrete generated move of
the standard opening position. -/
theorem c3_client_submits_generated_moves_witness :
    ((⟨MoveType.normal, some 13, some 8, 5⟩ : LegalMove) ∈
      ([⟨MoveType.normal, some 13, some 8, 5⟩, ⟨MoveType.enter, none, some 22, 3⟩,
        ⟨MoveType.bear_off, some 3, none, 3⟩] : List LegalMove)) ∧
    ((⟨MoveType.enter, none, some 22, 3⟩ : LegalMove) ∈
      ([⟨MoveType.normal, some 13, some 8, 5⟩, ⟨MoveType.enter, none, some 22, 3⟩,
        ⟨MoveType.bear_off, some 3, none, 3⟩] : List LegalMove)) ∧
    ((⟨MoveType.bear_off, some 3, none, 3⟩ : LegalMove) ∈
      ([⟨MoveType.normal, some 13, some 8, 5⟩, ⟨MoveType.enter, none, some 22, 3⟩,
        ⟨MoveType.bear_off, some 3, none, 3⟩] : List LegalMove)) ∧
    ((⟨MoveType.enter, none, some 22, 3⟩ : LegalMove) ∈ sampleGameState.legal_moves) ∧
    (validateMove stdRules stdBoard Player.white 6 5 [6, 5]
        ⟨MoveType.normal, some 24, some 18, 6⟩).1 = true :=
  ⟨c3_client_submits_generated_moves.1 _ 13 8 _ (by decide),
    c3_client_submits_generated_moves.2.1 _ 22 _ (by decide),
    c3_client_submits_generated_moves.2.2.1 _ 3 _ (by decide),
    c3_client_submits_generated_moves.2.2.2.1 sampleGameState none [] 22 _ (by decide),
    c3_client_submits_generated_moves.2.2.2.2 stdRules stdBoard Player.white 6 5 [6, 5]
      ⟨MoveType.normal, some 24, some 18, 6⟩ (by decide)⟩

/-- Updating the points at one number shifts any additive point measure by
the difference the update causes on the matching points. -/
lemma sum_map_update_aux (l : List EPoint) (n : Nat) (f : EPoint → EPoint)
    (g : EPoint → Nat) :
    ((l.map (fun pt => if pt.number = n then f pt else pt)).map g).sum +
      ((l.filter (fun pt => decide (pt.number = n))).map g).sum =
    (l.map g).sum +
      ((l.filter (fun pt => decide (pt.number = n))).map (fun pt => g (f pt))).sum := by
  induction l with
  | nil => simp
  | cons hd tl ih =>
    simp only [List.map_map] at ih
    by_cases hn : hd.number = n <;> simp [List.filter_cons, hn, List.map_map] <;> omega

/-- With pairwise distinct point numbers, the points matching the number
found by find? are exactly that one point. -/
lemma filter_eq_singleton_of_find? {l : List EPoint} {n : Nat} {pt : EPoint}
    (hnd : (l.map (fun pt => pt.number)).Nodup)
    (hf : l.find? (fun x => decide (x.number = n)) = some pt) :
    l.filter (fun x => decide (x.number = n)) = [pt] := by
  induction l with
  | nil => cases hf
  | cons hd tl ih =>
    rw [List.map_cons, List.nodup_cons] at hnd
    by_cases hn : hd.number = n
    · rw [List.find?_cons_of_pos _ (by simp [hn])] at hf
      cases hf
      rw [List.filter_cons_of_pos (by simp [hn])]
      have hempty : tl.filter (fun x => decide (x.number = n)) = [] := by
        rw [List.filter_eq_nil_iff]
        intro x hx
        simp only [decide_eq_true_eq]
        intro hxn
        exact hnd.1 (by rw [hn, ← hxn]; exact List.mem_map_of_mem _ hx)
      rw [hempty]
    · rw [List.find?_cons_of_neg _ (by simp [hn])] at hf
      rw [List.filter_cons_of_neg (by simp [hn])]
      exact ih hnd.2 hf

/-- With pairwise distinct point numbers, a point of the list is the one
find? returns for its own number. -/
lemma find?_eq_of_mem_nodup {l : List EPoint}
    (hnd : (l.map (fun pt => pt.number)).Nodup) {pt : EPoint} (hmem : pt ∈ l) :
    l.find? (fun x => decide (x.number = pt.number)) = some pt := by
  induction l with
  | nil => cases hmem
  | cons hd tl ih =>
    rw [List.map_cons, List.nodup_cons] at hnd
    rcases List.mem_cons.mp hmem with heq | hmem2
    · subst heq
      exact List.find?_cons_of_pos _ (by simp)
    · have hne : hd.number ≠ pt.number := by
        intro hcontra
        exact hnd.1 (by rw [hcontra]; exact List.mem_map_of_mem _ hmem2)
      rw [List.find?_cons_of_neg _ (by simp [hne])]
      exact ih hnd.2 hmem2

/-- A well-formed board has pairwise distinct point numbers. -/
lemma WF_nodup {b : EBoard} (hwf : b.WF) :
    (b.points.map (fun pt => pt.number)).Nodup := by
  rw [hwf]
  exact List.nodup_range' _ _

/-- A well-formed board carries a point for every in-range number. -/
lemma find?_isSome_of_WF {b : EBoard} (hwf : b.WF) {n : Nat} (h1 : 1 ≤ n)
    (h2 : n ≤ b.size) :
    ∃ pt, b.points.find? (fun x => decide (x.number = n)) = some pt ∧ pt.number = n := by
  have hmem : n ∈ b.points.map (fun pt => pt.number) := by
    rw [hwf, List.mem_range'_1]
    omega
  obtain ⟨pt, hpt, hn⟩ := List.mem_map.mp hmem
  have hs : (b.points.find? (fun x => decide (x.number = n))).isSome := by
    rw [List.find?_isSome]
    exact ⟨pt, hpt, by simp [hn]⟩
  obtain ⟨pt2, hf⟩ := Option.isSome_iff_exists.mp hs
  refine ⟨pt2, hf, ?_⟩
  have hp := List.find?_some hf
  simp only [decide_eq_true_eq] at hp
  exact hp

/-- When find? hits a point, getPoint returns it. -/
lemma getPoint_eq_of_find? {b : EBoard} {n : Nat} {pt : EPoint}
    (hf : b.points.find? (fun x => decide (x.number = n)) = some pt) :
    b.getPoint n = pt := by
  simp [EBoard.getPoint, hf]

/-- Updating one point changes the total checker count by exactly the mass
difference the update causes on the found point. -/
lemma totalCheckers_updatePoint {b : EBoard} {n : Nat} {f : EPoint → EPoint} {pt : EPoint}
    (hnd : (b.points.map (fun pt => pt.number)).Nodup)
    (hf : b.points.find? (fun x => decide (x.number = n)) = some pt) :
    (updatePoint b n f).totalCheckers + (pt.white_count + pt.black_count) =
      b.totalCheckers + ((f pt).white_count + (f pt).black_count) := by
  have hfilter := filter_eq_singleton_of_find? hnd hf
  have hsum := sum_map_update_aux b.points n f (fun pt => pt.white_count + pt.black_count)
  rw [hfilter] at hsum
  simp only [List.map_cons, List.map_nil, List.sum_cons, List.sum_nil] at hsum
  unfold EBoard.totalCheckers updatePoint
  simp only
  omega

/-- The mass of a point after adding a checker. -/
lemma mass_addTo (pt : EPoint) (q : Player) :
    (pt.addTo q).white_count + (pt.addTo q).black_count =
      pt.white_count + pt.black_count + 1 := by
  cases q <;> simp [EPoint.addTo] <;> omega

/-- The mass of a point after removing a present checker. -/
lemma mass_removeFrom (pt : EPoint) (q : Player) (h : 0 < pt.countOf q) :
    (pt.removeFrom q).white_count + (pt.removeFrom q).black_count + 1 =
      pt.white_count + pt.black_count := by
  cases q <;> simp [EPoint.removeFrom, EPoint.countOf] at * <;> omega

/-- Number preservation of the point updates used by moves. -/
lemma number_addTo (pt : EPoint) (q : Player) : (pt.addTo q).number = pt.number := by
  cases q <;> rfl

/-- Number preservation of checker removal. -/
lemma number_removeFrom (pt : EPoint) (q : Player) :
    (pt.removeFrom q).number = pt.number := by
  cases q <;> rfl

/-- Removing a checker of one color leaves the other color count alone. -/
lemma countOf_opp_removeFrom (pt : EPoint) (q : Player) :
    (pt.removeFrom q).countOf q.opp = pt.countOf q.opp := by
  cases q <;> rfl

/-- Adding a checker of one color leaves the other color count alone. -/
lemma countOf_opp_addTo (pt : EPoint) (q : Player) :
    (pt.addTo q).countOf q.opp = pt.countOf q.opp := by
  cases q <;> rfl

/-- The bar operations leave the point list alone. -/
lemma points_subBar (b : EBoard) (q : Player) : (b.subBar q).points = b.points := by
  cases q <;> rfl

/-- Adding to the bar leaves the point list alone. -/
lemma points_addBar (b : EBoard) (q : Player) : (b.addBar q).points = b.points := by
  cases q <;> rfl

/-- The bar operations leave the board size alone. -/
lemma size_subBar (b : EBoard) (q : Player) : (b.subBar q).size = b.size := by
  cases q <;> rfl

/-- Adding to the bar leaves the board size alone. -/
lemma size_addBar (b : EBoard) (q : Player) : (b.addBar q).size = b.size := by
  cases q <;> rfl

/-- Taking a checker off a non-empty bar lowers the total by one. -/
lemma totalCheckers_subBar {b : EBoard} {q : Player} (h : 0 < b.barOf q) :
    (b.subBar q).totalCheckers + 1 = b.totalCheckers := by
  cases q <;> simp [EBoard.subBar, EBoard.totalCheckers, EBoard.barOf] at * <;> omega

/-- Putting a checker on the bar raises the total by one. -/
lemma totalCheckers_addBar (b : EBoard) (q : Player) :
    (b.addBar q).totalCheckers = b.totalCheckers + 1 := by
  cases q <;> simp [EBoard.addBar, EBoard.totalCheckers] <;> omega

/-- Bearing a checker off raises the borne-off total by one. -/
lemma totalCheckers_addOff (b : EBoard) (q : Player) :
    (b.addOff q).totalCheckers = b.totalCheckers + 1 := by
  cases q <;> simp [EBoard.addOff, EBoard.totalCheckers] <;> omega

/-- An update that preserves point numbers preserves well-formedness. -/
lemma WF_updatePoint {b : EBoard} {n : Nat} {f : EPoint → EPoint}
    (hpres : ∀ pt, (f pt).number = pt.number) (hwf : b.WF) :
    (updatePoint b n f).WF := by
  unfold EBoard.WF updatePoint at *
  simp only
  rw [← hwf, List.map_map]
  apply List.map_congr_left
  intro pt _
  by_cases hn : pt.number = n <;> simp [hn, hpres]

/-- Reading a point of an updated board through the original find?. -/
lemma getPoint_updatePoint {b : EBoard} {m n : Nat} {f : EPoint → EPoint}
    (hpres : ∀ pt, (f pt).number = pt.number) :
    (updatePoint b m f).getPoint n =
      match b.points.find? (fun x => decide (x.number = n)) with
      | some pt => if pt.number = m then f pt else pt
      | none => ⟨n, 0, 0, false⟩ := by
  unfold EBoard.getPoint updatePoint
  simp only
  rw [List.find?_map]
  have hfun : ((fun x => decide (x.number = n)) ∘
      fun pt => if pt.number = m then f pt else pt) =
      (fun pt => decide (pt.number = n)) := by
    funext pt
    by_cases hn : pt.number = m <;> simp [hn, hpres]
  rw [hfun]
  cases hfind : b.points.find? (fun pt => decide (pt.number = n)) <;> simp

/-- Removing a mover checker from a source point does not change any
opponent count. -/
lemma oppCount_updatePoint_removeFrom {b : EBoard} {fpt t : Nat} {p : Player} :
    oppCount (updatePoint b fpt (fun pt => pt.removeFrom p)) p t = oppCount b p t := by
  unfold oppCount
  rw [getPoint_updatePoint (fun pt => number_removeFrom pt p)]
  cases hfind : b.points.find? (fun x => decide (x.number = t)) with
  | none => simp [EBoard.getPoint, hfind]
  | some pt =>
    rw [getPoint_eq_of_find? hfind]
    by_cases hn : pt.number = fpt <;> simp [hn, countOf_opp_removeFrom]

/-- A Hit resolution means exactly one opponent checker sits there. -/
lemma resolveOccupancy_eq_hit {rules : RuleConfig} {n : Nat}
    (h : resolveOccupancy rules n = Occupancy.Hit) : n = 1 := by
  unfold resolveOccupancy at h
  split_ifs at h <;> simp_all

/-- A Pin resolution only happens when hitting is off. -/
lemma resolveOccupancy_eq_pin {rules : RuleConfig} {n : Nat}
    (h : resolveOccupancy rules n = Occupancy.Pin) : rules.can_hit = false := by
  unfold resolveOccupancy at h
  split_ifs at h <;> simp_all

/-- With hitting on, a free landing means the point held no opponent. -/
lemma resolveOccupancy_eq_landFree {rules : RuleConfig} {n : Nat}
    (hhit : rules.can_hit = true)
    (h : resolveOccupancy rules n = Occupancy.LandFree) : n = 0 := by
  unfold resolveOccupancy at h
  split_ifs at h <;> first | omega | simp_all

/-- Bearing off leaves the point list alone. -/
lemma points_addOff (b : EBoard) (q : Player) : (b.addOff q).points = b.points := by
  cases q <;> rfl

/-- An on-board target has its number between 1 and the board size. -/
lemma inBoard_toNat {b : EBoard} {t : Int} (h : inBoard b t = true) :
    1 ≤ t.toNat ∧ t.toNat ≤ b.size := by
  unfold inBoard at h
  simp only [Bool.and_eq_true, decide_eq_true_eq] at h
  omega

/-- A movable source point is present in the point list and holds a checker
of the mover. -/
lemma find?_getPoint_of_movable {b : EBoard} {n : Nat} {p : Player}
    (h : movableSource p (b.getPoint n) = true) :
    b.points.find? (fun x => decide (x.number = n)) = some (b.getPoint n) ∧
      0 < (b.getPoint n).countOf p := by
  have hc : 0 < (b.getPoint n).countOf p := by
    unfold movableSource at h
    simp only [Bool.and_eq_true, decide_eq_true_eq] at h
    exact h.1
  refine ⟨?_, hc⟩
  cases hfind : b.points.find? (fun x => decide (x.number = n)) with
  | none =>
    exfalso
    have hdef : b.getPoint n = ⟨n, 0, 0, false⟩ := by simp [EBoard.getPoint, hfind]
    rw [hdef] at hc
    cases p <;> simp [EPoint.countOf] at hc
  | some pt =>
    rw [getPoint_eq_of_find? hfind]

/-- Landing on a well-formed board adds exactly one checker to the point
total, whichever of hit, pin or free landing applies. -/
lemma totalCheckers_landOn {rules : RuleConfig} {b : EBoard} {p : Player} {t : Nat}
    (hwf : b.WF) (h1 : 1 ≤ t) (h2 : t ≤ b.size)
    (hres : resolveOccupancy rules (oppCount b p t) ≠ Occupancy.Block) :
    (landOn rules b p t).totalCheckers = b.totalCheckers + 1 := by
  obtain ⟨pt, hf, hptn⟩ := find?_isSome_of_WF hwf h1 h2
  have hnd := WF_nodup hwf
  have hgp : b.getPoint t = pt := getPoint_eq_of_find? hf
  unfold landOn
  cases hocc : resolveOccupancy rules (oppCount b p t) with
  | Block => exact absurd hocc hres
  | Hit =>
    dsimp only
    have hopp : pt.countOf p.opp = 1 := by
      have hn1 := resolveOccupancy_eq_hit hocc
      unfold oppCount at hn1
      rw [hgp] at hn1
      exact hn1
    have hfb : (b.addBar p.opp).points.find? (fun x => decide (x.number = t)) = some pt := by
      rw [points_addBar]
      exact hf
    have hndb : ((b.addBar p.opp).points.map (fun pt => pt.number)).Nodup := by
      rw [points_addBar]
      exact hnd
    have hupd := totalCheckers_updatePoint
      (f := fun pt => (pt.removeFrom p.opp).addTo p) hndb hfb
    dsimp only at hupd
    have hmassa := mass_addTo (pt.removeFrom p.opp) p
    have hmassr := mass_removeFrom pt p.opp (by omega)
    have haddbar := totalCheckers_addBar b p.opp
    omega
  | Pin =>
    dsimp only
    have hupd := totalCheckers_updatePoint
      (f := fun pt => { pt.addTo p with pinned := true }) hnd hf
    dsimp only at hupd
    have hmassa := mass_addTo pt p
    have hpin : ({ pt.addTo p with pinned := true } : EPoint).white_count +
        ({ pt.addTo p with pinned := true } : EPoint).black_count =
        (pt.addTo p).white_count + (pt.addTo p).black_count := rfl
    omega
  | LandFree =>
    dsimp only
    have hupd := totalCheckers_updatePoint (f := fun pt => pt.addTo p) hnd hf
    dsimp only at hupd
    have hmassa := mass_addTo pt p
    omega

/-- Removing a checker never makes two colors coexist on a point. -/
lemma noCoexist_updatePoint_removeFrom {b : EBoard} {n : Nat} {p : Player}
    (h : noCoexist b) :
    noCoexist (updatePoint b n (fun pt => pt.removeFrom p)) := by
  intro pt2 hpt2
  unfold updatePoint at hpt2
  simp only [List.mem_map] at hpt2
  obtain ⟨pt, hpt, heq⟩ := hpt2
  by_cases hn : pt.number = n
  · rw [if_pos hn] at heq
    rw [← heq]
    rcases h pt hpt with h0 | h0 <;> cases p <;> simp [EPoint.removeFrom, h0]
  · rw [if_neg hn] at heq
    rw [← heq]
    exact h pt hpt

/-- With hitting on, landing preserves the one-color-per-point invariant on
boards with distinct point numbers. -/
lemma noCoexist_landOn_of_can_hit {rules : RuleConfig} {b : EBoard} {p : Player} {t : Nat}
    (hhit : rules.can_hit = true)
    (hnd : (b.points.map (fun pt => pt.number)).Nodup)
    (h : noCoexist b) :
    noCoexist (landOn rules b p t) := by
  unfold landOn
  cases hocc : resolveOccupancy rules (oppCount b p t) with
  | Block => exact h
  | Pin =>
    rw [resolveOccupancy_eq_pin hocc] at hhit
    cases hhit
  | Hit =>
    have hopp := resolveOccupancy_eq_hit hocc
    intro pt2 hpt2
    unfold updatePoint at hpt2
    rw [points_addBar] at hpt2
    simp only [List.mem_map] at hpt2
    obtain ⟨pt, hpt, heq⟩ := hpt2
    by_cases hn : pt.number = t
    · have hfind := find?_eq_of_mem_nodup hnd hpt
      rw [hn] at hfind
      have hgp : b.getPoint t = pt := getPoint_eq_of_find? hfind
      have hoppt : pt.countOf p.opp = 1 := by
        unfold oppCount at hopp
        rw [hgp] at hopp
        exact hopp
      rw [if_pos hn] at heq
      rw [← heq]
      cases p <;>
        simp [EPoint.removeFrom, EPoint.addTo, EPoint.countOf, Player.opp] at hoppt ⊢ <;>
        omega
    · rw [if_neg hn] at heq
      rw [← heq]
      exact h pt hpt
  | LandFree =>
    have hopp := resolveOccupancy_eq_landFree hhit hocc
    intro pt2 hpt2
    unfold updatePoint at hpt2
    simp only [List.mem_map] at hpt2
    obtain ⟨pt, hpt, heq⟩ := hpt2
    by_cases hn : pt.number = t
    · have hfind := find?_eq_of_mem_nodup hnd hpt
      rw [hn] at hfind
      have hgp : b.getPoint t = pt := getPoint_eq_of_find? hfind
      have hoppt : pt.countOf p.opp = 0 := by
        unfold oppCount at hopp
        rw [hgp] at hopp
        exact hopp
      rw [if_pos hn] at heq
      rw [← heq]
      cases p <;>
        simp [EPoint.addTo, EPoint.countOf, Player.opp] at hoppt ⊢ <;>
        omega
    · rw [if_neg hn] at heq
      rw [← heq]
      exact h pt hpt

/-- Applying any generated candidate to a well-formed board conserves the
total checker count. -/
lemma totalCheckers_applyMove {rules : RuleConfig} {b : EBoard} {p : Player}
    {d1 d2 : Nat} {rem : List Nat} {c : LegalMove} (hwf : b.WF)
    (hmem : c ∈ get_legal_moves rules b p d1 d2 rem) :
    (applyMove rules b p c).totalCheckers = b.totalCheckers := by
  unfold get_legal_moves at hmem
  split at hmem
  case isTrue hbar =>
    obtain ⟨v, hv, hin, hres, hc⟩ := mem_enterCandidates.mp hmem
    subst hc
    unfold applyMove
    dsimp only
    have hb : (b.subBar p).WF := by
      unfold EBoard.WF
      rw [points_subBar, size_subBar]
      exact hwf
    have hbound := inBoard_toNat hin
    have hoppeq : ∀ n, oppCount (b.subBar p) p n = oppCount b p n := by
      intro n
      unfold oppCount EBoard.getPoint
      rw [points_subBar]
    have hres2 : resolveOccupancy rules
        (oppCount (b.subBar p) p (entryTarget rules b p v).toNat) ≠ Occupancy.Block := by
      rw [hoppeq]
      exact hres
    have hl := totalCheckers_landOn hb hbound.1
      (by rw [size_subBar]; exact hbound.2) hres2
    have hs := totalCheckers_subBar hbar
    omega
  case isFalse hbar =>
    rw [List.mem_dedup, List.mem_append] at hmem
    have hnd := WF_nodup hwf
    rcases hmem with hmem | hmem
    · obtain ⟨f, hfsrc, v, hv, hin, hres, hc⟩ := mem_normalCandidates.mp hmem
      subst hc
      unfold applyMove
      dsimp only
      obtain ⟨ptf, hptfmem, hptfmov, hptfnum⟩ :
          ∃ ptf ∈ b.points, movableSource p ptf = true ∧ ptf.number = f := by
        unfold sourcePoints at hfsrc
        simp only [List.mem_map, List.mem_filter] at hfsrc
        obtain ⟨ptf, ⟨hmem2, hmov⟩, hnum⟩ := hfsrc
        exact ⟨ptf, hmem2, hmov, hnum⟩
      have hfind : b.points.find? (fun x => decide (x.number = f)) = some ptf := by
        have hx := find?_eq_of_mem_nodup hnd hptfmem
        rw [hptfnum] at hx
        exact hx
      have hcount : 0 < ptf.countOf p := by
        unfold movableSource at hptfmov
        simp only [Bool.and_eq_true, decide_eq_true_eq] at hptfmov
        exact hptfmov.1
      have hupd := totalCheckers_updatePoint (f := fun pt => pt.removeFrom p) hnd hfind
      dsimp only at hupd
      have hmassr := mass_removeFrom ptf p hcount
      have hb2 : (updatePoint b f (fun pt => pt.removeFrom p)).WF :=
        WF_updatePoint (fun pt => number_removeFrom pt p) hwf
      have hbound := inBoard_toNat hin
      have hres2 : resolveOccupancy rules
          (oppCount (updatePoint b f (fun pt => pt.removeFrom p)) p
            (normalTarget rules p f v).toNat) ≠ Occupancy.Block := by
        rw [oppCount_updatePoint_removeFrom]
        exact hres
      have hl := totalCheckers_landOn hb2 hbound.1 hbound.2 hres2
      omega
    · obtain ⟨helig, v, hv, hcase⟩ := mem_bearOffCandidates hmem
      rcases hcase with ⟨hmov, hc⟩ | ⟨hm1, hm2, hmovex, hmov, hc⟩ <;> subst hc <;>
        unfold applyMove <;> dsimp only <;>
        [obtain ⟨hfind, hcount⟩ := find?_getPoint_of_movable hmov;
         obtain ⟨hfind, hcount⟩ := find?_getPoint_of_movable hmov] <;>
        [have hupd := totalCheckers_updatePoint (f := fun pt => pt.removeFrom p) hnd hfind;
         have hupd := totalCheckers_updatePoint (f := fun pt => pt.removeFrom p) hnd hfind] <;>
        dsimp only at hupd <;>
        [have hmassr := mass_removeFrom _ p hcount;
         have hmassr := mass_removeFrom _ p hcount] <;>
        rw [totalCheckers_addOff] <;> omega

/-- C6: checker conservation for the standard 15-checker variants: after any
applied generated move the bars, borne-off counts and point stacks still sum
to 30. -/
theorem c6_checker_conservation :
    ∀ (rules : RuleConfig) (b : EBoard) (p : Player) (d1 d2 : Nat)
      (rem : List Nat) (c : LegalMove), b.WF →
      c ∈ get_legal_moves rules b p d1 d2 rem → b.totalCheckers = 30 →
      (applyMove rules b p c).totalCheckers = 30 := by
  intro rules b p d1 d2 rem c hwf hmem h30
  rw [totalCheckers_applyMove hwf hmem]
  exact h30

/-- Witness for C6 on the standard opening position and the generated move
24 to 18 with a die of six. -/
theorem c6_checker_conservation_witness :
    (applyMove stdRules stdBoard Player.white
      ⟨MoveType.normal, some 24, some 18, 6⟩).totalCheckers = 30 :=
  c6_checker_conservation stdRules stdBoard Player.white 6 5 [6, 5]
    ⟨MoveType.normal, some 24, some 18, 6⟩ (by unfold EBoard.WF; decide) (by decide)
    (by decide)

/-- Bearing off never makes two colors coexist on a point. -/
lemma noCoexist_addOff {b : EBoard} {q : Player} (h : noCoexist b) :
    noCoexist (b.addOff q) := by
  unfold noCoexist at *
  rw [points_addOff]
  exact h

/-- Counterexample for C7: in a pin-instead variant a legal generated move
lands white on the single black checker of point 3, after which point 3
holds one checker of each color, so opposing checkers do coexist on a point
reached by an applied legal move from a coexistence-free board. -/
theorem c7_pin_coexistence_counterexample :
    noCoexist pinBoard ∧
      pinMove ∈ get_legal_moves pinRules pinBoard Player.white 3 1 [3, 1] ∧
      ¬ noCoexist (applyMove pinRules pinBoard Player.white pinMove) := by
  refine ⟨by unfold noCoexist; decide, by decide, by unfold noCoexist; decide⟩

/-- C7, amended: for variants that hit (can_hit = true) no point of any
board reached by applying generated moves ever holds checkers of both
colors: a landing checker hits the lone opponent or lands free, and blocked
points are never offered.  Under pin_instead, and under no-hit free
landings, the destination becomes legally co-occupied instead. -/
theorem c7_no_coexist_for_hitting_variants :
    ∀ (rules : RuleConfig) (b : EBoard) (p : Player) (d1 d2 : Nat)
      (rem : List Nat) (c : LegalMove), rules.can_hit = true → b.WF →
      noCoexist b → c ∈ get_legal_moves rules b p d1 d2 rem →
      noCoexist (applyMove rules b p c) := by
  intro rules b p d1 d2 rem c hhit hwf hno hmem
  unfold get_legal_moves at hmem
  split at hmem
  case isTrue hbar =>
    obtain ⟨v, hv, hin, hres, hc⟩ := mem_enterCandidates.mp hmem
    subst hc
    unfold applyMove
    dsimp only
    apply noCoexist_landOn_of_can_hit hhit
    · rw [points_subBar]
      exact WF_nodup hwf
    · unfold noCoexist
      rw [points_subBar]
      exact hno
  case isFalse hbar =>
    rw [List.mem_dedup, List.mem_append] at hmem
    rcases hmem with hmem | hmem
    · obtain ⟨f, hfsrc, v, hv, hin, hres, hc⟩ := mem_normalCandidates.mp hmem
      subst hc
      unfold applyMove
      dsimp only
      apply noCoexist_landOn_of_can_hit hhit
      · exact WF_nodup (WF_updatePoint (fun pt => number_removeFrom pt p) hwf)
      · exact noCoexist_updatePoint_removeFrom hno
    · obtain ⟨helig, v, hv, hcase⟩ := mem_bearOffCandidates hmem
      rcases hcase with ⟨hmov, hc⟩ | ⟨hm1, hm2, hmovex, hmov, hc⟩ <;> subst hc <;>
        unfold applyMove <;> dsimp only <;>
        exact noCoexist_addOff (noCoexist_updatePoint_removeFrom hno)

/-- Witness for the amended C7 on the standard opening position: the board
after the generated move 24 to 18 still has no co-occupied point. -/
theorem c7_no_coexist_for_hitting_variants_witness :
    noCoexist (applyMove stdRules stdBoard Player.white
      ⟨MoveType.normal, some 24, some 18, 6⟩) :=
  c7_no_coexist_for_hitting_variants stdRules stdBoard Player.white 6 5 [6, 5]
    ⟨MoveType.normal, some 24, some 18, 6⟩ rfl (by unfold EBoard.WF; decide)
    (by unfold noCoexist; decide) (by decide)

end TablaBaki
